import Mathlib

/-!
Verification of the EcoFood meal-planning backend's orchestration core.

The definitions below are a shallow embedding of the Python source:

* `services/plan_jobs.py`        — the job store operations on a `PlanningJob` row
                                   together with its append-only event log;
* `agent/a2a/plan_runner.py`     — the background job runner `_execute_planning`
                                   with its per-day loop, cancellation checks and
                                   whole-week fallback policy, plus the message
                                   classifier `_is_llm_empty_plan`;
* `agent/a2a/agents.py`          — the deterministic `MealArchitectAgent` plan
                                   generation (slot pools and `pick_unique_recipe`);
* `agent/tools/mcp/chef.py`      — the LLM-backed `chef_plan_week` pipeline
                                   (`_extract_plan_from_text`, `_normalize_plan`);
* `agent/tools/mcp/pantry.py`    — `pantry_suggest_usage`;
* `agent/tools/mcp/household.py` — `household_profile`.

Database sessions are modelled as explicit state passing; `await` points carry no
other semantics here because every claim under study is about the sequential data
flow of one job.  Exceptions are modelled with `Except`/`Option`.  Python string
operations (`.strip()`, `.lower()`, `.capitalize()`, `.title()`, substring `in`)
are modelled on the underlying character lists.
-/

/-! ## Python string primitives -/

/-- Python `str.lower()` (ASCII case folding, which is all the source uses). -/
def pyLower (s : String) : String := String.mk (s.toList.map Char.toLower)

/-- Python `str.strip()`: whitespace removed from both ends. -/
def pyStrip (s : String) : String :=
  String.mk (((s.toList.dropWhile Char.isWhitespace).reverse.dropWhile
    Char.isWhitespace).reverse)

/-- Python slicing `s[:n]`. -/
def pyTake (s : String) (n : Nat) : String := String.mk (s.toList.take n)

/-- Python `str.capitalize()`: first character uppercased, the rest lowercased. -/
def pyCapitalize (s : String) : String :=
  match s.toList with
  | [] => ""
  | c :: rest => String.mk (c.toUpper :: rest.map Char.toLower)

/-- Helper for `pyTitle`: the Boolean records whether the previous character was
alphabetic. -/
def pyTitleAux : List Char → Bool → List Char
  | [], _ => []
  | c :: rest, prevAlpha =>
    (if prevAlpha then c.toLower else c.toUpper) :: pyTitleAux rest c.isAlpha

/-- Python `str.title()`: a letter that follows a non-letter is uppercased, a
letter that follows a letter is lowercased. -/
def pyTitle (s : String) : String := String.mk (pyTitleAux s.toList false)

/-- Substring containment on character lists (Python's `needle in hay`). -/
def listContainsSub (needle : List Char) : List Char → Bool
  | [] => needle.isEmpty
  | c :: rest => needle.isPrefixOf (c :: rest) || listContainsSub needle rest

/-- Python `needle in hay` on strings. -/
def strContainsSub (hay needle : String) : Bool :=
  listContainsSub needle.toList hay.toList

/-- Python compares strings code point by code point; this is the resulting
`≤` on the underlying character lists. -/
def charListLe : List Char → List Char → Bool
  | [], _ => true
  | _ :: _, [] => false
  | a :: as, b :: bs =>
    if a.toNat < b.toNat then true
    else if b.toNat < a.toNat then false
    else charListLe as bs

/-- Python `a <= b` on strings (used by `sorted` as a tie-break). -/
def pyStrLe (a b : String) : Prop := charListLe a.toList b.toList = true

instance : DecidableRel pyStrLe := fun a b => by
  unfold pyStrLe; infer_instance

/-! ## Job store (`services/plan_jobs.py`)

A `PlanningJob` row is reduced to the fields the claims talk about; the event
log is the list of `PlanningJobEvent` rows of the job, in insertion order
(`add_event` appends, ids are monotonically assigned by the database). -/

structure PlanningJob where
  status : String
  planId : Option Nat
  deriving DecidableEq, Repr

structure PlanningJobEvent where
  stage : String
  message : String
  deriving DecidableEq, Repr

/-- The slice of the database a single job's operations read and write:
the job row (which may be absent) and its event log. -/
structure JobStore where
  job : Option PlanningJob
  events : List PlanningJobEvent
  deriving DecidableEq, Repr

/-- `add_event`: append one event row (the store assigns the next id). -/
def add_event (s : JobStore) (stage message : String) : JobStore :=
  { s with events := s.events ++ [{ stage := stage, message := message }] }

/-- `mark_job_started`: no-op when the row is gone, else set status running. -/
def mark_job_started (s : JobStore) : JobStore :=
  match s.job with
  | none => s
  | some j => { s with job := some { j with status := "running" } }

/-- `mark_job_completed`: no-op when the row is gone, else set status completed
and record the plan id. -/
def mark_job_completed (s : JobStore) (planId : Nat) : JobStore :=
  match s.job with
  | none => s
  | some j => { s with job := some { j with status := "completed", planId := some planId } }

/-- `mark_job_failed`: no-op when the row is gone, else set status failed
unconditionally and append an error event. -/
def mark_job_failed (s : JobStore) (error : String) : JobStore :=
  match s.job with
  | none => s
  | some j => add_event { s with job := some { j with status := "failed" } } "error" error

/-- The statuses `cancel_job` treats as terminal. -/
def terminalStatuses : List String := ["completed", "failed", "cancelled"]

/-- `cancel_job`: no-op when the row is gone or already terminal, else set
status cancelled and append a cancellation event. -/
def cancel_job (s : JobStore) (reason : Option String) : JobStore :=
  match s.job with
  | none => s
  | some j =>
    if terminalStatuses.contains j.status then s
    else add_event { s with job := some { j with status := "cancelled" } }
      "cancelled" (reason.getD "Cancelled")

/-! ## Error-message classifier (`plan_runner._is_llm_empty_plan`) -/

/-- `_is_llm_empty_plan`: lowercase the stringified exception and look for one
of three fixed phrases. -/
def is_llm_empty_plan (message : String) : Bool :=
  strContainsSub (pyLower message) "did not return a plan"
    || strContainsSub (pyLower message) "empty plan"
    || strContainsSub (pyLower message) "unable to parse gemini json"

/-! ## LLM plan generation (`agent/tools/mcp/chef.py`)

`chef_plan_week` builds a prompt, calls the Gemini client, extracts the first
JSON object from the response text, validates it has a `plan` list and
normalizes each entry.  The regex/JSON layer of `_extract_plan_from_text` is
abstracted by `ExtractOutcome`, which records which of the source's four
mutually exclusive cases the raw response text falls into; the raised error
messages are the source's, verbatim.  The Gemini call itself is the `llm`
parameter: `Except.error` is a raised `GeminiClientError` (its stringified
message), `Except.ok` a successful response text. -/

def DAY_LABELS : List String := ["Mon", "Tue", "Wed", "Thu", "Fri", "Sat", "Sun"]

def MEAL_SLOTS : List String := ["Breakfast", "Lunch", "Dinner"]

/-- A JSON ingredient as consumed by `_normalize_plan`: either a JSON object
(of which only the four read keys matter) or a bare string; other JSON values
are dropped by the source and omitted from the model. -/
inductive RawIngredient where
  | dict (name quantity unit notes : Option String)
  | str (s : String)
  deriving DecidableEq, Repr

/-- A JSON plan entry as consumed by `_normalize_plan`: exactly the keys the
source reads, each possibly absent.  Numeric fields are `Option Int`, `none`
standing for an absent or non-coercible value (`_safe_int` conflates the two).
`steps` holds the already-stringified step values. -/
structure RawEntry where
  day : Option String
  meal : Option String
  title : Option String
  summary : Option String
  ingredients : List RawIngredient
  steps : List String
  prepMinutes : Option Int
  cookMinutes : Option Int
  caloriesPerPerson : Option Int
  requiredTools : List String
  deriving DecidableEq, Repr

structure NormIngredient where
  name : String
  quantity : Option String
  unit : Option String
  notes : Option String
  deriving DecidableEq, Repr

structure NormEntry where
  day : String
  meal : String
  title : String
  summary : String
  ingredients : List NormIngredient
  steps : List String
  prepMinutes : Int
  cookMinutes : Int
  caloriesPerPerson : Int
  requiredTools : List String
  deriving DecidableEq, Repr

/-- `_safe_int(value, default)`: `none` (absent / not coercible) falls back. -/
def safe_int (v : Option Int) (default : Int) : Int := v.getD default

/-- Python `value or fallback` on an optional string: `None` and `""` are falsy. -/
def pyOrStr (v : Option String) (fallback : String) : String :=
  match v with
  | none => fallback
  | some s => if s = "" then fallback else s

/-- The `day_map` dictionary of `_normalize_plan` (full weekday names only). -/
def dayMap : List (String × String) :=
  [("monday", "Mon"), ("tuesday", "Tue"), ("wednesday", "Wed"), ("thursday", "Thu"),
   ("friday", "Fri"), ("saturday", "Sat"), ("sunday", "Sun")]

/-- The `allowed_days` set comprehension:
`day_map.get(day.strip().lower(), day[:3].title())` for each target day.
(Membership is all the source uses, so a list models the set.) -/
def allowedDays (targetDays : List String) : List String :=
  targetDays.map (fun d =>
    ((dayMap.lookup (pyLower (pyStrip d))).getD (pyTitle (pyTake d 3))))

/-- The body of `_normalize_plan`'s loop for one `(index, entry)` pair;
`none` models the `continue` that drops a day outside the allowed set. -/
def normalize_entry (targetAllowed : List String) (index : Nat) (entry : RawEntry) :
    Option NormEntry :=
  let positionalDay := DAY_LABELS.getD (index / MEAL_SLOTS.length % DAY_LABELS.length) ""
  let dayValue := pyOrStr entry.day positionalDay
  let dayKey := pyTake (pyLower (pyStrip dayValue)) 3
  let day := (dayMap.lookup (pyLower (pyStrip dayValue))).getD
    ((dayMap.lookup dayKey).getD positionalDay)
  if !targetAllowed.isEmpty && !targetAllowed.contains day then none
  else
    let positionalMeal := MEAL_SLOTS.getD (index % MEAL_SLOTS.length) ""
    let mealValue := pyOrStr entry.meal positionalMeal
    let mealCap := pyCapitalize mealValue
    let meal := if MEAL_SLOTS.contains mealCap then mealCap else positionalMeal
    let ingredients := entry.ingredients.map (fun ing =>
      match ing with
      | .dict name quantity unit notes =>
        ({ name := pyOrStr name "Ingredient", quantity := quantity,
           unit := unit, notes := notes } : NormIngredient)
      | .str s => ({ name := s, quantity := none, unit := none, notes := none } : NormIngredient))
    let steps0 := (entry.steps.map pyStrip).filter (fun s => s ≠ "")
    let steps := if steps0.isEmpty then ["Gather ingredients and cook to taste."] else steps0
    some { day := day, meal := meal,
           title := pyOrStr entry.title (meal ++ " inspiration"),
           summary := pyOrStr entry.summary "Chef-inspired idea.",
           ingredients := ingredients, steps := steps,
           prepMinutes := safe_int entry.prepMinutes 10,
           cookMinutes := safe_int entry.cookMinutes 15,
           caloriesPerPerson := safe_int entry.caloriesPerPerson 450,
           requiredTools := entry.requiredTools }

/-- `_normalize_plan`: enumerate the extracted list, normalize each entry,
dropping entries whose day is not in the allowed set. -/
def normalize_plan (plan : List RawEntry) (targetDays : List String) : List NormEntry :=
  plan.enum.filterMap (fun p => normalize_entry (allowedDays targetDays) p.1 p.2)

/-- Which of `_extract_plan_from_text`'s four cases a raw response text falls
into: no JSON object in the text, JSON that fails to parse, parsed JSON whose
`plan` key is not a list, or a successfully extracted `plan` list. -/
inductive ExtractOutcome where
  | noJson
  | badJson
  | missingPlan
  | plan (entries : List RawEntry)
  deriving DecidableEq, Repr

/-- `_extract_plan_from_text`, with the source's raised messages verbatim. -/
def extract_plan_from_text : ExtractOutcome → Except String (List RawEntry)
  | .noJson => .error "Gemini response did not contain JSON."
  | .badJson => .error "Unable to parse Gemini JSON."
  | .missingPlan => .error ("Gemini JSON missing \x27plan\x27 list.")
  | .plan entries => .ok entries

/-- The result of `chef_plan_week` (the `model`/`prompt`/`raw_text` echo fields
carry no logic and are omitted). -/
structure ChefResult where
  plan : List NormEntry
  deriving DecidableEq, Repr

/-- `days or DAY_LABELS`: an absent or empty day filter means the full week. -/
def chefTargetDays (days : Option (List String)) : List String :=
  match days with
  | none => DAY_LABELS
  | some l => if l.isEmpty then DAY_LABELS else l

/-- `chef_plan_week`: wrap a `GeminiClientError` in a `RuntimeError` with the
`"Gemini menu generation failed: "` prefix; let extraction errors propagate;
otherwise return the normalized plan — with no emptiness check. -/
def chef_plan_week (llm : Except String ExtractOutcome) (days : Option (List String)) :
    Except String ChefResult :=
  let targetDays := chefTargetDays days
  match llm with
  | .error e => .error ("Gemini menu generation failed: " ++ e)
  | .ok outcome =>
    match extract_plan_from_text outcome with
    | .error e => .error e
    | .ok planData => .ok { plan := normalize_plan planData targetDays }

/-! ## Attendee eligibility (`plan_runner._member_attends_slot`)

A member's `meal_schedule` is an optional mapping day-label → (slot → truthy
override); the per-meal default toggles are the `eats_*` columns. -/

structure HouseholdMember where
  eatsBreakfast : Bool
  eatsLunch : Bool
  eatsDinner : Bool
  mealSchedule : Option (List (String × List (String × Bool)))
  deriving DecidableEq

/-- `_member_attends_slot`, translated control-flow for control-flow: the
default toggle is computed first, then an override present for (day, slot) is
`bool`-coerced and conjoined with it. -/
def member_attends_slot (m : HouseholdMember) (dayLabel slot : String) : Bool :=
  let slotLower := pyLower slot
  let baseAllowed :=
    if slotLower = "breakfast" then m.eatsBreakfast
    else if slotLower = "lunch" then m.eatsLunch
    else if slotLower = "dinner" then m.eatsDinner
    else true
  match m.mealSchedule with
  | none => baseAllowed
  | some schedule =>
    match schedule.lookup dayLabel with
    | none => baseAllowed
    | some daySchedule =>
      match daySchedule.lookup slot with
      | none => baseAllowed
      | some v => v && baseAllowed

/-- Observation function: the member's default per-meal-type toggle for a slot
(`eats_breakfast` / `eats_lunch` / `eats_dinner`, `True` for unknown slots). -/
def defaultToggle (m : HouseholdMember) (slot : String) : Bool :=
  if pyLower slot = "breakfast" then m.eatsBreakfast
  else if pyLower slot = "lunch" then m.eatsLunch
  else if pyLower slot = "dinner" then m.eatsDinner
  else true

/-- Observation function: the schedule override recorded for (day, slot), if
any. -/
def overrideFor (m : HouseholdMember) (dayLabel slot : String) : Option Bool :=
  m.mealSchedule.bind fun schedule =>
    (schedule.lookup dayLabel).bind fun daySchedule => daySchedule.lookup slot

/-! ## Background job runner (`plan_runner.run_plan_job` / `_execute_planning`)

The runner drives one workflow call per day (Mon..Sun), re-reads the job row at
each day boundary, applies the whole-week fallback policy, aggregates entries
and finally saves the plan.  `workflow.generate` is abstracted as an oracle
`gen : Nat → Option String → Except String (List RunEntry)`: the first argument
is the index of the call within the job (the runner's calls happen in a fixed
sequential order; indexing them models an LLM whose answers may differ between
invocations), the second the request's `days` field (`some d` for the
single-day request, `none` for a whole-week fallback request); the result is
the `final_plan.plan` list of a successful `generate`, or the stringified
raised exception.  Timeline annotation (`_annotate_timeline`) carries no
control flow and is omitted.  `aborted` records that `_execute_planning`
executed a `return`; `exc` records an exception propagating out of it. -/

def DAY_ORDER : List String := ["Mon", "Tue", "Wed", "Thu", "Fri", "Sat", "Sun"]

/-- One entry of a generated `final_plan.plan`: the runner only ever reads its
`day` key (`entry.get("day")`, which may be absent). -/
structure RunEntry where
  day : Option String
  deriving DecidableEq, Repr

/-- Ghost record of one `workflow.generate` invocation: the single-day primary
call, the whole-week fallback issued from the exception handler, or the
whole-week fallback issued when a result has no entries for the day. -/
inductive CallKind where
  | primary (day : String)
  | fallbackExc (day : String)
  | fallbackEmpty (day : String)
  deriving DecidableEq, Repr

/-- The state `_execute_planning` threads: the job's database slice, the
aggregated entries, the saved plan (set only by the final save), the count and
ghost log of `workflow.generate` calls, the returned-early flag and the
propagating exception, if any. -/
structure RunState where
  store : JobStore
  aggregated : List RunEntry
  saved : Option (List RunEntry)
  callIdx : Nat
  callLog : List CallKind
  aborted : Bool
  exc : Option String
  deriving DecidableEq, Repr

def stAddEvent (st : RunState) (stage message : String) : RunState :=
  { st with store := add_event st.store stage message }

def stMarkFailed (st : RunState) (error : String) : RunState :=
  { st with store := mark_job_failed st.store error }

def stAbort (st : RunState) : RunState := { st with aborted := true }

/-- Record one `workflow.generate` invocation. -/
def recordCall (st : RunState) (k : CallKind) : RunState :=
  { st with callIdx := st.callIdx + 1, callLog := st.callLog ++ [k] }

/-- Lines 203-214 / 169-202 of `_execute_planning`: handle the result of the
whole-week generation run from the `if not day_entries` branch.  A raised
exception here is not caught locally (it propagates to `run_plan_job`). -/
def emptyFallback (day : String) (st : RunState)
    (r : Except String (List RunEntry)) : RunState :=
  match r with
  | .error fe => { st with exc := some fe }
  | .ok res2 =>
    let fbEntries := res2.filter (fun e => e.day = some day)
    if fbEntries.isEmpty then
      stAbort (stAddEvent (stMarkFailed st ("No meals for " ++ day))
        "error" ("No meals for " ++ day))
    else
      stAddEvent { st with aggregated := st.aggregated ++ fbEntries }
        "planned" (day ++ " planned")

/-- Lines 158-226 of `_execute_planning`: filter the day's entries out of a
workflow result; when there are none, emit a fallback event, rerun the
workflow for the whole week and keep that run's entries for the day (failing
the job if they are still empty); otherwise aggregate and emit `planned`. -/
def afterResult (gen : Nat → Option String → Except String (List RunEntry))
    (day : String) (st : RunState) (res : List RunEntry) : RunState :=
  let dayEntries := res.filter (fun e => e.day = some day)
  if dayEntries.isEmpty then
    emptyFallback day
      (recordCall (stAddEvent st "fallback" ("Fallback triggered for " ++ day))
        (CallKind.fallbackEmpty day))
      (gen st.callIdx none)
  else
    stAddEvent { st with aggregated := st.aggregated ++ dayEntries }
      "planned" (day ++ " planned")

/-- Lines 119-145 of `_execute_planning`: the whole-week retry inside the
exception handler; its own failure marks the job failed and returns. -/
def excFallback (gen : Nat → Option String → Except String (List RunEntry))
    (day : String) (st : RunState) (r : Except String (List RunEntry)) : RunState :=
  match r with
  | .error fe =>
    stAbort (stAddEvent (stMarkFailed st fe) "error" (day ++ " failed"))
  | .ok res => afterResult gen day st res

/-- Lines 114-157 of `_execute_planning`: classify a raised error; an
empty-plan-classified error triggers the in-handler whole-week retry, any
other error marks the job failed and returns. -/
def execPrimary (gen : Nat → Option String → Except String (List RunEntry))
    (day : String) (st : RunState) (r : Except String (List RunEntry)) : RunState :=
  match r with
  | .error e =>
    if is_llm_empty_plan e then
      excFallback gen day (recordCall st (CallKind.fallbackExc day)) (gen st.callIdx none)
    else
      stAbort (stAddEvent (stMarkFailed st e) "error" (day ++ " failed"))
  | .ok res => afterResult gen day st res

/-- Lines 68-226 of `_execute_planning`: one iteration of the day loop.  The
guard models that nothing further runs once the function has returned or an
exception is propagating. -/
def execDay (gen : Nat → Option String → Except String (List RunEntry))
    (day : String) (st : RunState) : RunState :=
  if st.aborted || st.exc.isSome then st
  else
    match st.store.job with
    | none =>
      stAbort (stAddEvent (stMarkFailed st "Job missing mid-run")
        "error" "Job missing while planning")
    | some j =>
      if j.status = "cancelled" then
        stAbort (stAddEvent st "cancelled" ("Cancelled before " ++ day))
      else
        execPrimary gen day
          (recordCall (stAddEvent st "planning" ("Planning " ++ day))
            (CallKind.primary day))
          (gen st.callIdx (some day))

/-- The day loop over a list of day labels. -/
def execDays (gen : Nat → Option String → Except String (List RunEntry))
    (days : List String) (st : RunState) : RunState :=
  days.foldl (fun s d => execDay gen d s) st

/-- Lines 228-263 of `_execute_planning`: the final save.  A missing job or a
cancelled status means no plan is saved; otherwise the aggregated entries are
persisted, the job is marked completed and a completion event is emitted.
(The persisted plan id is abstracted as `1`; `save_plan`'s attendee pruning is
internal to the plan-storage collaborator.) -/
def finalSave (st : RunState) : RunState :=
  if st.aborted || st.exc.isSome then st
  else
    match st.store.job with
    | none => stAbort st
    | some j =>
      if j.status = "cancelled" then
        stAbort (stAddEvent st "cancelled" "Cancelled before saving")
      else
        stAddEvent
          { st with saved := some st.aggregated,
                    store := mark_job_completed st.store 1 }
          "completed" "Planning complete"

/-- Lines 29-34 of `run_plan_job`: any exception escaping `_execute_planning`
is converted into a failed status (with its error event). -/
def topHandler (st : RunState) : RunState :=
  match st.exc with
  | none => st
  | some e => stMarkFailed st e

/-- The store before the runner starts: the created job (`status="pending"`)
with an empty event log. -/
def pendingStore : JobStore :=
  { job := some { status := "pending", planId := none }, events := [] }

/-- Lines 19-27 of `run_plan_job`: mark the job running and emit `started`. -/
def initRunState : RunState :=
  { store := add_event (mark_job_started pendingStore) "started" "Planning job started",
    aggregated := [], saved := none, callIdx := 0, callLog := [],
    aborted := false, exc := none }

/-- `run_plan_job` for a job that exists: preamble, the day loop, the final
save, and the top-level failure handler. -/
def run_plan_job (gen : Nat → Option String → Except String (List RunEntry)) : RunState :=
  topHandler (finalSave (execDays gen DAY_ORDER initRunState))

/-- External cancellation (the `cancel_job` endpoint) applied between two day
boundaries of a running job. -/
def stCancel (st : RunState) : RunState :=
  { st with store := cancel_job st.store none }

/-- The interleaving claimed about in the cancellation property: the runner
processes days `0..n`, the job is cancelled externally, and the runner then
continues with the remaining days and the final save. -/
def runWithCancelAfter (gen : Nat → Option String → Except String (List RunEntry))
    (n : Nat) : RunState :=
  topHandler (finalSave (execDays gen (DAY_ORDER.drop (n + 1))
    (stCancel (execDays gen (DAY_ORDER.take (n + 1)) initRunState))))

/-- Number of ghost-logged whole-week fallback calls attributed to a day. -/
def countFallbackCalls (day : String) (log : List CallKind) : Nat :=
  log.countP (fun k =>
    match k with
    | .fallbackExc d => d = day
    | .fallbackEmpty d => d = day
    | .primary _ => false)

/-! ## Meal architect (`agent/a2a/agents.py`, `MealArchitectAgent.run`)

Recipe search, tool matching and the query templates produce the candidate
pools; the claims under study are about what `run` does with the pools, so the
pools are parameters: `slotPools` is the `slot_pools` dict (one resolved pool
per slot) and `recipePool` the week-level `recipe_pool` fallback.  A `Recipe`
is reduced to its `id`, the only field the assignment logic inspects.  The
week loop in `run` uses the same literal day list as `DAY_ORDER`. -/

structure Recipe where
  id : String
  deriving DecidableEq, Repr

/-- One entry `run` appends to `plan` (the copied recipe fields other than the
id play no role in the claims and are omitted). -/
structure PlanEntry where
  day : String
  meal : String
  recipeId : String
  deriving DecidableEq, Repr

/-- `resolve_slot_pool`: the first non-empty tool-filtered query pool, else
`recipe_pool`.  `queryPools` lists, in query order, the tool-filtered search
results of the slot's `slot_queries` templates. -/
def resolve_slot_pool (queryPools : List (List Recipe)) (recipePool : List Recipe) :
    List Recipe :=
  match queryPools.find? (fun p => !p.isEmpty) with
  | some p => p
  | none => recipePool

/-- `pick_unique_recipe`: first unused recipe of the slot pool, else first
unused recipe of the week pool (both recorded in `used_recipe_ids`), else the
deterministic cycle `pool[(day_index*3 + slot_index) % len(pool)]` (which does
not record the id).  `none` models the `IndexError`/`ZeroDivisionError` an
empty `pool` would raise in the cycle case. -/
def pick_unique_recipe (pool recipePool : List Recipe) (used : List String)
    (dayIndex slotIndex : Nat) : Option (Recipe × List String) :=
  match pool.find? (fun r => !used.contains r.id) with
  | some r => some (r, r.id :: used)
  | none =>
    match recipePool.find? (fun r => !used.contains r.id) with
    | some r => some (r, r.id :: used)
    | none =>
      match pool.get? ((dayIndex * MEAL_SLOTS.length + slotIndex) % pool.length) with
      | some r => some (r, used)
      | none => none

/-- `slot_pools.get(slot) or recipe_pool` (an empty dict value is falsy). -/
def effectivePool (slotPools : String → List Recipe) (recipePool : List Recipe)
    (slot : String) : List Recipe :=
  if (slotPools slot).isEmpty then recipePool else slotPools slot

/-- The nested `for day_index, day in enumerate(days): for slot_index, slot in
enumerate(MEAL_SLOTS)` iteration space, flattened in execution order. -/
def slotCoords : List ((Nat × String) × (Nat × String)) :=
  (DAY_ORDER.enum).flatMap (fun d => (MEAL_SLOTS.enum).map (fun s => (d, s)))

/-- The plan-building loop of `MealArchitectAgent.run`, threading
`used_recipe_ids`. -/
def meal_architect_go (slotPools : String → List Recipe) (recipePool : List Recipe) :
    List ((Nat × String) × (Nat × String)) → List String → Option (List PlanEntry)
  | [], _ => some []
  | (d, s) :: rest, used =>
    match pick_unique_recipe (effectivePool slotPools recipePool s.2) recipePool
        used d.1 s.1 with
    | none => none
    | some (r, used2) =>
      match meal_architect_go slotPools recipePool rest used2 with
      | none => none
      | some tail => some ({ day := d.2, meal := s.2, recipeId := r.id } :: tail)

/-- The `plan` list `MealArchitectAgent.run` generates from the given pools. -/
def meal_architect_plan (slotPools : String → List Recipe) (recipePool : List Recipe) :
    Option (List PlanEntry) :=
  meal_architect_go slotPools recipePool slotCoords []

/-- Number of distinct recipe ids in a pool. -/
def distinctIdCount (pool : List Recipe) : Nat := ((pool.map Recipe.id).dedup).length

/-! ## Pantry usage suggestions (`agent/tools/mcp/pantry.py`) -/

/-- `PantryItemUsage` (`quantity` is a float the function never inspects; an
integer magnitude suffices for the model). -/
structure PantryItemUsage where
  name : String
  quantity : Option Int
  unit : Option String
  daysUntilExpiry : Option Int
  deriving DecidableEq, Repr

structure PantrySuggestion where
  title : String
  description : String
  uses : List String
  style : String
  deriving DecidableEq, Repr

structure PantryUsageResult where
  suggestions : List PantrySuggestion
  note : Option String
  deriving DecidableEq, Repr

/-- The sort key of `focus_items.sort(key=lambda i: (i.days_until_expiry or
9999, i.name))`: Python's `or` replaces both `None` and `0` (falsy) by 9999. -/
def pantryKey (i : PantryItemUsage) : Int :=
  match i.daysUntilExpiry with
  | none => 9999
  | some d => if d = 0 then 9999 else d

/-- The tuple order `(key, name)` used by the sort. -/
def pantryLe (a b : PantryItemUsage) : Prop :=
  pantryKey a < pantryKey b ∨ (pantryKey a = pantryKey b ∧ pyStrLe a.name b.name)

instance : DecidableRel pantryLe := fun a b => by
  unfold pantryLe; infer_instance

/-- Parsing of one raw item (`str(raw.get("name", "")).strip()`). -/
def parsePantryItem (raw : PantryItemUsage) : PantryItemUsage :=
  { raw with name := pyStrip raw.name }

/-- `focus_items`: named items, sorted soonest key first (Python's stable sort
is modelled by the stable `insertionSort`). -/
def focusItems (items : List PantryItemUsage) : List PantryItemUsage :=
  (((items.map parsePantryItem).filter (fun i => i.name ≠ "")).insertionSort pantryLe)

/-- The `join_list` helper. -/
def join_list : List String → String
  | [] => ""
  | [v] => v
  | vs => String.intercalate ", " vs.dropLast ++ " and " ++ vs.getLastD ""

/-- Python `value or fallback` on a plain string (empty string is falsy). -/
def pyOrPlain (v fallback : String) : String := if v = "" then fallback else v

/-- `pantry_suggest_usage`: the three template suggestions built from the
prioritised names. -/
def pantry_suggest_usage (items : List PantryItemUsage) : PantryUsageResult :=
  let names := (focusItems items).map PantryItemUsage.name
  if names.isEmpty then
    { suggestions := [], note := some "No valid items provided." }
  else
    let primary := names.take 3
    let extra := (names.drop 3).take 3
    let first := primary.headD ""
    let s1 : PantrySuggestion :=
      { title := "Sheet-pan dinner with " ++ first,
        description := "Roast " ++ first ++ " together with "
          ++ pyOrPlain (join_list primary.tail) "mixed vegetables"
          ++ " on a single tray. Add olive oil, herbs, and a starch (e.g. potatoes or grains) "
          ++ "to build a complete, low-effort dinner.",
        uses := primary, style := "one-pan" }
    let s2 : List PantrySuggestion :=
      if 2 ≤ primary.length then
        [{ title := "Comfort stew using " ++ join_list (primary.take 2),
           description := "Combine " ++ join_list (primary.take 2)
             ++ " in a pot with onions, garlic, and stock. "
             ++ "Simmer into a stew or curry. Serve over rice or with crusty bread.",
           uses := primary.take 2 ++ extra, style := "stew" }]
      else []
    let s3 : PantrySuggestion :=
      { title := "Next-day lunch bowls featuring " ++ first,
        description := "Turn leftover " ++ join_list primary
          ++ " into cold or warm grain bowls. "
          ++ "Pair with greens, a grain (rice, quinoa, bulgur), and a simple dressing "
          ++ "to get an easy, balanced lunch.",
        uses := primary ++ extra, style := "bowl" }
    { suggestions := [s1] ++ s2 ++ [s3], note := none }

/-! ## Household profiling (`agent/tools/mcp/household.py`) -/

/-- A member payload as consumed by `household_profile`. -/
structure MemberInput where
  name : String
  role : String
  allergens : List String
  likes : List String
  deriving DecidableEq, Repr

/-- `key = value.strip().lower()` applied to every like/allergen label. -/
def normKey (s : String) : String := pyLower (pyStrip s)

/-- All normalized non-empty like keys, with multiplicity (the dict
`like_counts` counts exactly these occurrences). -/
def likeKeys (members : List MemberInput) : List String :=
  ((members.flatMap MemberInput.likes).map normKey).filter (fun k => k ≠ "")

/-- All normalized non-empty allergen keys, with multiplicity. -/
def allergenKeys (members : List MemberInput) : List String :=
  ((members.flatMap MemberInput.allergens).map normKey).filter (fun k => k ≠ "")

/-- The order `sorted(..., key=lambda kv: (-kv[1], kv[0]))`: descending count,
ascending name.  (All keys of the counting dict are distinct, so the sorted
output is independent of the dict's insertion order.) -/
def countOrder (a b : String × Nat) : Prop :=
  b.2 < a.2 ∨ (a.2 = b.2 ∧ pyStrLe a.1 b.1)

instance : DecidableRel countOrder := fun a b => by
  unfold countOrder; infer_instance

instance : IsTotal (String × Nat) countOrder := ⟨by
  have htot : ∀ as bs : List Char, charListLe as bs = true ∨ charListLe bs as = true := by
    intro as
    induction as with
    | nil => intro bs; left; rfl
    | cons a as ih =>
      intro bs
      cases bs with
      | nil => right; rfl
      | cons b bs =>
        simp only [charListLe]
        by_cases h1 : a.toNat < b.toNat
        · left; simp [h1]
        · by_cases h2 : b.toNat < a.toNat
          · right; simp [h2]
          · rcases ih bs with h | h
            · left; simp [h1, h2, h]
            · right; simp [h1, h2, h]
  intro a b
  unfold countOrder pyStrLe
  rcases lt_trichotomy a.2 b.2 with h | h | h
  · right; left; exact h
  · rcases htot a.1.toList b.1.toList with hle | hle
    · left; right; exact ⟨h, hle⟩
    · right; right; exact ⟨h.symm, hle⟩
  · left; left; exact h⟩

instance : IsTrans (String × Nat) countOrder := ⟨by
  have htrans : ∀ as bs cs : List Char, charListLe as bs = true →
      charListLe bs cs = true → charListLe as cs = true := by
    intro as
    induction as with
    | nil => intro bs cs _ _; rfl
    | cons a as ih =>
      intro bs cs h1 h2
      cases bs with
      | nil => simp [charListLe] at h1
      | cons b bs =>
        cases cs with
        | nil => simp [charListLe] at h2
        | cons c cs =>
          simp only [charListLe] at h1 h2 ⊢
          by_cases hab : a.toNat < b.toNat
          · by_cases hbc : b.toNat < c.toNat
            · have hac : a.toNat < c.toNat := Nat.lt_trans hab hbc
              simp [hac]
            · rw [if_neg hbc] at h2
              by_cases hcb : c.toNat < b.toNat
              · rw [if_pos hcb] at h2
                cases h2
              · have hac : a.toNat < c.toNat := by omega
                simp [hac]
          · rw [if_neg hab] at h1
            by_cases hba : b.toNat < a.toNat
            · rw [if_pos hba] at h1
              cases h1
            · rw [if_neg hba] at h1
              by_cases hbc : b.toNat < c.toNat
              · have hac : a.toNat < c.toNat := by omega
                simp [hac]
              · rw [if_neg hbc] at h2
                by_cases hcb : c.toNat < b.toNat
                · rw [if_pos hcb] at h2
                  cases h2
                · rw [if_neg hcb] at h2
                  have hac : ¬ a.toNat < c.toNat := by omega
                  have hca : ¬ c.toNat < a.toNat := by omega
                  rw [if_neg hac, if_neg hca]
                  exact ih bs cs h1 h2
  intro a b c hab hbc
  unfold countOrder pyStrLe at *
  rcases hab with h1 | ⟨h1, h1s⟩ <;> rcases hbc with h2 | ⟨h2, h2s⟩
  · left; omega
  · left; omega
  · left; omega
  · right
    exact ⟨by omega, htrans _ _ _ h1s h2s⟩⟩

/-- The `(key, count)` items of a counting dict over the given occurrences. -/
def countItems (occurrences : List String) : List (String × Nat) :=
  occurrences.dedup.map (fun k => (k, occurrences.count k))

/-- `sorted_likes`. -/
def sortedLikes (members : List MemberInput) : List (String × Nat) :=
  (countItems (likeKeys members)).insertionSort countOrder

/-- `sorted_allergens`. -/
def sortedAllergens (members : List MemberInput) : List (String × Nat) :=
  (countItems (allergenKeys members)).insertionSort countOrder

/-- The profile returned by `household_profile` (the `roles` summary carries no
claim content but is kept for shape). -/
structure HouseholdProfile where
  memberCount : Nat
  allergens : List (String × Nat)
  topLikes : List (String × Nat)
  deriving DecidableEq, Repr

/-- `household_profile`: full allergen list, likes truncated to the first 10 of
the frequency-sorted list. -/
def household_profile (members : List MemberInput) : HouseholdProfile :=
  { memberCount := members.length,
    allergens := sortedAllergens members,
    topLikes := (sortedLikes members).take 10 }


/-! ## Concrete instances used to exercise the definitions -/

/-- A response entry for Monday, used against a Tuesday-only request. -/
def c5RawEntry : RawEntry :=
  { day := some "Monday", meal := some "Breakfast", title := some "Toast",
    summary := some "Simple.", ingredients := [], steps := [],
    prepMinutes := none, cookMinutes := none, caloriesPerPerson := none,
    requiredTools := [] }

/-- A member who skips breakfast by default but has a positive Monday
breakfast override. -/
def c6Member : HouseholdMember :=
  { eatsBreakfast := false, eatsLunch := true, eatsDinner := true,
    mealSchedule := some [("Mon", [("Breakfast", true)])] }

/-- A workflow oracle that always succeeds and always returns one entry
tagged with the requested day. -/
def genAllOk : Nat → Option String → Except String (List RunEntry) :=
  fun _ o => .ok [{ day := o }]

/-- A workflow oracle whose first (single-day) call raises an empty-plan
error and whose whole-week calls return entries for Tuesday only. -/
def genEmptyPlanTrace : Nat → Option String → Except String (List RunEntry) :=
  fun i _ => if i = 0 then .error "empty plan" else .ok [{ day := some "Tue" }]

/-- A workflow oracle that always succeeds with an empty plan. -/
def genOkEmpty : Nat → Option String → Except String (List RunEntry) :=
  fun _ _ => .ok []

/-- Twenty-one recipes with pairwise distinct ids. -/
def recipes21 : List Recipe := (List.range 21).map (fun i => { id := "r" ++ toString i })

/-- An item expiring today. -/
def milkItem : PantryItemUsage :=
  { name := "milk", quantity := none, unit := none, daysUntilExpiry := some 0 }

/-- An item expiring in five days. -/
def appleItem : PantryItemUsage :=
  { name := "apple", quantity := none, unit := none, daysUntilExpiry := some 5 }

/-- A pantry with an item expiring today and an item expiring in five days. -/
def c9Items : List PantryItemUsage := [milkItem, appleItem]

/-- A household member declaring eleven distinct likes and one allergen. -/
def c10Member : MemberInput :=
  { name := "Ana", role := "Adult", allergens := ["nuts"],
    likes := ["a01", "a02", "a03", "a04", "a05", "a06", "a07", "a08", "a09", "a10", "a11"] }

/-! # Theorems -/

/-! ### C1: no transition out of a terminal job status -/

/-- C1 (counterexample): the claim says no job-store operation ever
transitions a job out of a terminal status, and in particular that a
cancelled job is never overwritten to failed.  But `mark_job_failed` has no
terminal-status guard: applied to a job whose status is the terminal
`"cancelled"`, it rewrites the status to `"failed"`. -/
theorem mark_job_failed_overwrites_cancelled :
    terminalStatuses.contains "cancelled" = true
    ∧ (mark_job_failed
        { job := some { status := "cancelled", planId := none }, events := [] }
        "boom").job.map PlanningJob.status = some "failed"
    ∧ "failed" ≠ "cancelled" := by
  refine ⟨rfl, rfl, by decide⟩

/-- C1 (amended): `cancel_job` alone guards terminal statuses — on a job
whose status is completed, failed or cancelled it returns the store
unchanged — while `mark_job_failed` overwrites the status to `"failed"`
unconditionally (and so can move a cancelled job to failed, e.g. from the
runner's top-level failure handler). -/
theorem job_store_terminal_behaviour (s : JobStore) (j : PlanningJob)
    (r : Option String) (e : String) (hj : s.job = some j)
    (ht : terminalStatuses.contains j.status = true) :
    cancel_job s r = s
    ∧ (mark_job_failed s e).job.map PlanningJob.status = some "failed" := by
  constructor
  · unfold cancel_job
    rw [hj]
    simp only [ht]
    simp
  · unfold mark_job_failed
    rw [hj]
    simp [add_event]

/-- Witness for `job_store_terminal_behaviour` at a concrete cancelled job. -/
theorem job_store_terminal_behaviour_witness :
    ({ job := some { status := "cancelled", planId := none }, events := [] } : JobStore).job
      = some { status := "cancelled", planId := none }
    ∧ terminalStatuses.contains "cancelled" = true
    ∧ cancel_job { job := some { status := "cancelled", planId := none }, events := [] }
        (some "stop")
      = { job := some { status := "cancelled", planId := none }, events := [] }
    ∧ (mark_job_failed
        { job := some { status := "cancelled", planId := none }, events := [] }
        "late failure").job.map PlanningJob.status = some "failed" := by
  refine ⟨rfl, by decide, ?_, ?_⟩
  · exact (job_store_terminal_behaviour _ _ (some "stop") "late failure" rfl (by decide)).1
  · exact (job_store_terminal_behaviour _ _ (some "stop") "late failure" rfl (by decide)).2

/-! ### C4: classification of the LLM path's failures -/

/-- C4 (code evaluation): the claim says every failure raised by the LLM
plan-generation path is recognised by `_is_llm_empty_plan`.  The classifier's
phrases do not match the messages `chef.py` actually raises: the
missing-`plan`-key message and the no-JSON message are not recognised, nor is
a wrapped Gemini client error; only the unparseable-JSON message is.  (The
empty-normalized-plan case raises nothing at all — see `chef_plan_week`.) -/
theorem classifier_misses_chef_errors :
    extract_plan_from_text .missingPlan
      = .error ("Gemini JSON missing \x27plan\x27 list.")
    ∧ is_llm_empty_plan ("Gemini JSON missing \x27plan\x27 list.") = false
    ∧ extract_plan_from_text .noJson
      = .error "Gemini response did not contain JSON."
    ∧ is_llm_empty_plan "Gemini response did not contain JSON." = false
    ∧ is_llm_empty_plan
        "Gemini menu generation failed: GEMINI_API_KEY environment variable is missing."
      = false
    ∧ extract_plan_from_text .badJson = .error "Unable to parse Gemini JSON."
    ∧ is_llm_empty_plan "Unable to parse Gemini JSON." = true := by
  refine ⟨rfl, by decide, rfl, by decide, by decide, rfl, by decide⟩

/-! ### C5: empty normalized plan in `chef_plan_week` -/

/-- C5 (counterexample): the claim says `chef_plan_week` raises when the
extracted plan normalizes to zero entries.  It does not: with a parsed plan
whose only entry is for Monday and a request restricted to Tuesday, every
entry is filtered out and the function returns `ok` with an empty plan. -/
theorem chef_plan_week_returns_empty_ok :
    chef_plan_week (.ok (.plan [c5RawEntry])) (some ["Tue"]) = .ok { plan := [] } := by
  rfl

/-- C5 (amended): `chef_plan_week` propagates an error for a failed Gemini
call (wrapped), for a response without JSON, for unparseable JSON and for a
missing `plan` list; but when the extracted plan normalizes to zero entries
it returns `ok` with an empty plan instead of raising. -/
theorem chef_plan_week_error_behaviour (entries : List RawEntry)
    (days : Option (List String)) (e : String)
    (h : normalize_plan entries (chefTargetDays days) = []) :
    chef_plan_week (.error e) days = .error ("Gemini menu generation failed: " ++ e)
    ∧ chef_plan_week (.ok .noJson) days
      = .error "Gemini response did not contain JSON."
    ∧ chef_plan_week (.ok .badJson) days = .error "Unable to parse Gemini JSON."
    ∧ chef_plan_week (.ok .missingPlan) days
      = .error ("Gemini JSON missing \x27plan\x27 list.")
    ∧ chef_plan_week (.ok (.plan entries)) days = .ok { plan := [] } := by
  refine ⟨rfl, rfl, rfl, rfl, ?_⟩
  have hres : chef_plan_week (.ok (.plan entries)) days
      = Except.ok (ChefResult.mk (normalize_plan entries (chefTargetDays days))) := rfl
  rw [hres, h]

/-- Witness for `chef_plan_week_error_behaviour` at the Monday-entry /
Tuesday-request instance. -/
theorem chef_plan_week_error_behaviour_witness :
    normalize_plan [c5RawEntry] (chefTargetDays (some ["Tue"])) = []
    ∧ chef_plan_week (.ok (.plan [c5RawEntry])) (some ["Tue"]) = .ok { plan := [] } := by
  refine ⟨rfl, ?_⟩
  exact (chef_plan_week_error_behaviour [c5RawEntry] (some ["Tue"]) "x" rfl).2.2.2.2

/-! ### C6: attendee eligibility -/

/-- C6 (counterexample): the claim says a true schedule override makes the
member attend even when the default toggle is false.  The source conjoins the
override with the default toggle, so a member with `eats_breakfast == False`
and a true Monday-breakfast override still does not attend. -/
theorem override_true_does_not_grant :
    overrideFor c6Member "Mon" "Breakfast" = some true
    ∧ defaultToggle c6Member "Breakfast" = false
    ∧ member_attends_slot c6Member "Mon" "Breakfast" = false := by
  refine ⟨rfl, rfl, rfl⟩

/-- C6 (amended): when the schedule holds an override for (day, slot) the
member attends iff the override value AND the default per-meal-type toggle
are both true (an override can veto attendance but never grant it beyond the
default); with no override the default toggle alone decides. -/
theorem member_attends_slot_characterisation (m : HouseholdMember)
    (dayLabel slot : String) :
    (∀ v, overrideFor m dayLabel slot = some v →
      member_attends_slot m dayLabel slot = (v && defaultToggle m slot))
    ∧ (overrideFor m dayLabel slot = none →
      member_attends_slot m dayLabel slot = defaultToggle m slot) := by
  have hmain : member_attends_slot m dayLabel slot =
      (match overrideFor m dayLabel slot with
      | some v => v && defaultToggle m slot
      | none => defaultToggle m slot) := by
    unfold member_attends_slot overrideFor defaultToggle
    cases hms : m.mealSchedule with
    | none => rfl
    | some schedule =>
      cases hd : schedule.lookup dayLabel with
      | none => simp [hd]
      | some daySchedule =>
        cases hs : daySchedule.lookup slot with
        | none => simp [hd, hs]
        | some v => simp [hd, hs]
  constructor
  · intro v hv
    rw [hmain, hv]
  · intro hv
    rw [hmain, hv]

/-- Witness for `member_attends_slot_characterisation`: the no-override side
at a slot without an override, and the override side at Monday breakfast. -/
theorem member_attends_slot_characterisation_witness :
    overrideFor c6Member "Mon" "Lunch" = none
    ∧ member_attends_slot c6Member "Mon" "Lunch" = defaultToggle c6Member "Lunch"
    ∧ overrideFor c6Member "Mon" "Breakfast" = some true
    ∧ member_attends_slot c6Member "Mon" "Breakfast"
      = (true && defaultToggle c6Member "Breakfast") := by
  refine ⟨rfl, ?_, rfl, ?_⟩
  · exact (member_attends_slot_characterisation c6Member "Mon" "Lunch").2 rfl
  · exact (member_attends_slot_characterisation c6Member "Mon" "Breakfast").1 true rfl

/-! ### C9: pantry prioritisation -/

/-- C9 (code evaluation): the claim says the suggestion builder orders items
soonest-expiring first, and in particular an item with `days_until_expiry ==
0` before every strictly later item.  The sort key is `days_until_expiry or
9999`, and `0` is falsy in Python, so the day-0 item is keyed 9999 and
ordered after the day-5 item; the suggestions are then built from the day-5
item first. -/
theorem pantry_sort_zero_expiry_last :
    pantryKey milkItem = 9999
    ∧ pantryKey appleItem = 5
    ∧ (focusItems c9Items).map PantryItemUsage.name = ["apple", "milk"]
    ∧ ((pantry_suggest_usage c9Items).suggestions.map PantrySuggestion.title).headD ""
      = "Sheet-pan dinner with apple" := by
  refine ⟨rfl, rfl, by decide, by decide⟩

/-! ### C7 and C8: meal architect plan shape and recipe de-duplication -/

/-- The (day, meal) coordinates of a generated plan are exactly the iteration
coordinates, in order. -/
theorem meal_architect_go_coords (sp : String → List Recipe) (rp : List Recipe) :
    ∀ (coords : List ((Nat × String) × (Nat × String))) (used : List String)
      (plan : List PlanEntry),
      meal_architect_go sp rp coords used = some plan →
      plan.map (fun e => (e.day, e.meal)) = coords.map (fun c => (c.1.2, c.2.2)) := by
  intro coords
  induction coords with
  | nil =>
    intro used plan h
    simp only [meal_architect_go] at h
    cases h
    rfl
  | cons c rest ih =>
    intro used plan h
    obtain ⟨d, s⟩ := c
    simp only [meal_architect_go] at h
    split at h
    · cases h
    · rename_i r used2 hp
      split at h
      · cases h
      · rename_i tail hg
        cases h
        simp only [List.map_cons]
        rw [ih _ tail hg]

/-- C7: a generated weekly plan (the architect always plans the full week)
has exactly 21 entries and no two entries share a (day, meal) pair. -/
theorem meal_architect_plan_shape (sp : String → List Recipe) (rp : List Recipe)
    (plan : List PlanEntry) (h : meal_architect_plan sp rp = some plan) :
    plan.length = 21 ∧ (plan.map (fun e => (e.day, e.meal))).Nodup := by
  have hc := meal_architect_go_coords sp rp slotCoords [] plan h
  constructor
  · have h2 := congrArg List.length hc
    rw [List.length_map, List.length_map] at h2
    rw [h2]
    rfl
  · rw [hc]
    decide

/-- The slot pools used in the witness below: no per-slot pool, so every slot
falls back to the week pool. -/
def slotPoolsEmpty : String → List Recipe := fun _ => []

/-- The plan generated from 21 distinct recipes. -/
def plan21 : List PlanEntry := (meal_architect_plan slotPoolsEmpty recipes21).getD []

/-- Witness for `meal_architect_plan_shape` at a concrete 21-recipe pool. -/
theorem meal_architect_plan_shape_witness :
    meal_architect_plan slotPoolsEmpty recipes21 = some plan21
    ∧ plan21.length = 21
    ∧ (plan21.map (fun e => (e.day, e.meal))).Nodup := by
  have h : meal_architect_plan slotPoolsEmpty recipes21 = some plan21 := rfl
  exact ⟨h, (meal_architect_plan_shape _ _ _ h).1, (meal_architect_plan_shape _ _ _ h).2⟩

/-- When strictly more distinct recipe ids exist in the pool than used ids,
the first-unused scan of `pick_unique_recipe` succeeds. -/
theorem find_unused_of_lt_distinct (pool : List Recipe) (used : List String)
    (h : used.length < distinctIdCount pool) :
    ∃ r, pool.find? (fun r => !used.contains r.id) = some r := by
  cases hf : pool.find? (fun r => !used.contains r.id) with
  | some r => exact ⟨r, rfl⟩
  | none =>
    exfalso
    have hall := List.find?_eq_none.mp hf
    have hsub : ((pool.map Recipe.id).dedup) ⊆ used := by
      intro x hx
      rw [List.mem_dedup] at hx
      obtain ⟨r, hr, hrid⟩ := List.mem_map.mp hx
      have hcontains := hall r hr
      simp only [Bool.not_eq_true, Bool.not_eq_false] at hcontains
      rw [← hrid]
      simpa using hcontains
    have hnd : ((pool.map Recipe.id).dedup).Nodup := List.nodup_dedup _
    have hle : distinctIdCount pool ≤ used.length :=
      (List.subperm_of_subset hnd hsub).length_le
    omega

/-- The de-duplication invariant of the generation loop: as long as every
effective slot pool holds at least 21 distinct recipe ids and at most 21 ids
are ever used, every pick takes a fresh id, so the generated recipe ids are
pairwise distinct and disjoint from the incoming used set. -/
theorem meal_architect_go_nodup (sp : String → List Recipe) (rp : List Recipe)
    (h21 : ∀ slot ∈ MEAL_SLOTS, 21 ≤ distinctIdCount (effectivePool sp rp slot)) :
    ∀ (coords : List ((Nat × String) × (Nat × String))) (used : List String)
      (plan : List PlanEntry),
      (∀ c ∈ coords, c.2.2 ∈ MEAL_SLOTS) →
      used.length + coords.length ≤ 21 →
      meal_architect_go sp rp coords used = some plan →
      (plan.map PlanEntry.recipeId).Nodup
      ∧ ∀ e ∈ plan, e.recipeId ∉ used := by
  intro coords
  induction coords with
  | nil =>
    intro used plan _ _ h
    simp only [meal_architect_go] at h
    cases h
    simp
  | cons c rest ih =>
    intro used plan hmem hlen h
    obtain ⟨d, s⟩ := c
    have hslot : s.2 ∈ MEAL_SLOTS := hmem (d, s) (by simp)
    have hlt : used.length < distinctIdCount (effectivePool sp rp s.2) := by
      have h1 := h21 s.2 hslot
      have h2 : rest.length + 1 = ((d, s) :: rest).length := by simp
      omega
    obtain ⟨r, hr⟩ := find_unused_of_lt_distinct _ used hlt
    have hpick : pick_unique_recipe (effectivePool sp rp s.2) rp used d.1 s.1
        = some (r, r.id :: used) := by
      unfold pick_unique_recipe
      rw [hr]
    have hfresh : r.id ∉ used := by
      have hpred := List.find?_some hr
      simpa using hpred
    simp only [meal_architect_go, hpick] at h
    split at h
    · cases h
    · rename_i tail hg
      cases h
      obtain ⟨ihnd, ihused⟩ := ih (r.id :: used) tail
        (fun c hc => hmem c (List.mem_cons_of_mem _ hc))
        (by simp at hlen ⊢; omega) hg
      constructor
      · simp only [List.map_cons, List.nodup_cons]
        refine ⟨?_, ihnd⟩
        intro hmem2
        obtain ⟨e, he, heid⟩ := List.mem_map.mp hmem2
        have hnotin := ihused e he
        rw [heid] at hnotin
        exact hnotin (List.mem_cons_self _ _)
      · intro e he
        rcases List.mem_cons.mp he with rfl | he2
        · exact hfresh
        · have := ihused e he2
          intro hin
          exact this (List.mem_cons_of_mem _ hin)

/-- When a pick reuses an id already in `used_recipe_ids`, it can only have
come from the cycling fallback: every id of the slot pool and of the week pool
is already used, the pick is the deterministic cycle entry, and the used set
is unchanged. -/
theorem pick_unique_reuse (pool rp : List Recipe) (used : List String)
    (dayIndex slotIndex : Nat) (r : Recipe) (used2 : List String)
    (hp : pick_unique_recipe pool rp used dayIndex slotIndex = some (r, used2))
    (hused : r.id ∈ used) :
    (∀ q ∈ pool, q.id ∈ used)
    ∧ (∀ q ∈ rp, q.id ∈ used)
    ∧ pool.get? ((dayIndex * MEAL_SLOTS.length + slotIndex) % pool.length) = some r
    ∧ used2 = used := by
  unfold pick_unique_recipe at hp
  split at hp
  · rename_i r1 h1
    cases hp
    have hpred := List.find?_some h1
    simp at hpred
    exact absurd hused hpred
  · rename_i h1
    split at hp
    · rename_i r2 h2
      cases hp
      have hpred := List.find?_some h2
      simp at hpred
      exact absurd hused hpred
    · rename_i h2
      split at hp
      · rename_i r3 h3
        cases hp
        have hall1 := List.find?_eq_none.mp h1
        have hall2 := List.find?_eq_none.mp h2
        refine ⟨?_, ?_, h3, rfl⟩
        · intro q hq
          have := hall1 q hq
          simpa using this
        · intro q hq
          have := hall2 q hq
          simpa using this
      · cases hp

/-- C8: with at least 21 distinct recipe ids in every effective slot pool, no
recipe id is reused across the 21 generated entries; and whenever a pick does
reuse an id, all ids of both pools were already used and the pick is the
deterministic cycle `pool[(day_index*3 + slot_index) % len(pool)]` (the whole
assignment is a pure function of the pools, hence deterministic given the
same pool ordering). -/
theorem recipe_dedup_policy (sp : String → List Recipe) (rp : List Recipe)
    (plan : List PlanEntry)
    (h21 : ∀ slot ∈ MEAL_SLOTS, 21 ≤ distinctIdCount (effectivePool sp rp slot))
    (hgen : meal_architect_plan sp rp = some plan) :
    (plan.map PlanEntry.recipeId).Nodup
    ∧ (∀ (pool : List Recipe) (used : List String) (dayIndex slotIndex : Nat)
        (r : Recipe) (used2 : List String),
        pick_unique_recipe pool rp used dayIndex slotIndex = some (r, used2) →
        r.id ∈ used →
        (∀ q ∈ pool, q.id ∈ used)
        ∧ (∀ q ∈ rp, q.id ∈ used)
        ∧ pool.get? ((dayIndex * MEAL_SLOTS.length + slotIndex) % pool.length) = some r
        ∧ used2 = used) := by
  constructor
  · exact (meal_architect_go_nodup sp rp h21 slotCoords [] plan
      (by decide) (by decide) hgen).1
  · intro pool used dayIndex slotIndex r used2 hp hused
    exact pick_unique_reuse pool rp used dayIndex slotIndex r used2 hp hused

/-- Witness for `recipe_dedup_policy` at the 21-recipe pool: the hypothesis
holds (each effective pool is the 21-id week pool) and the generated ids are
pairwise distinct. -/
theorem recipe_dedup_policy_witness :
    21 ≤ distinctIdCount (effectivePool slotPoolsEmpty recipes21 "Breakfast")
    ∧ 21 ≤ distinctIdCount (effectivePool slotPoolsEmpty recipes21 "Lunch")
    ∧ 21 ≤ distinctIdCount (effectivePool slotPoolsEmpty recipes21 "Dinner")
    ∧ meal_architect_plan slotPoolsEmpty recipes21 = some plan21
    ∧ (plan21.map PlanEntry.recipeId).Nodup := by
  refine ⟨by decide, by decide, by decide, rfl, ?_⟩
  exact (recipe_dedup_policy slotPoolsEmpty recipes21 plan21 (by decide) rfl).1

/-! ### C10: household profile truncation -/

/-- C10: `top_likes` is the frequency-sorted like list truncated to 10 (its
length is `min 10` the number of distinct likes), the allergen list is never
truncated (its length is the number of distinct allergens), and every like
dropped by the truncation has a count no larger than any kept one. -/
theorem household_profile_truncation (members : List MemberInput)
    (p q : String × Nat)
    (hp : p ∈ (sortedLikes members).drop 10)
    (hq : q ∈ (household_profile members).topLikes) :
    (household_profile members).topLikes.length
      = min 10 (countItems (likeKeys members)).length
    ∧ (household_profile members).allergens.length
      = (countItems (allergenKeys members)).length
    ∧ p.2 ≤ q.2 := by
  have hsorted : List.Sorted countOrder (sortedLikes members) :=
    List.sorted_insertionSort countOrder (countItems (likeKeys members))
  have hsplit : List.Pairwise countOrder
      ((sortedLikes members).take 10 ++ (sortedLikes members).drop 10) := by
    rw [List.take_append_drop]
    exact hsorted
  have hcross := (List.pairwise_append.mp hsplit).2.2
  have hq' : q ∈ (sortedLikes members).take 10 := hq
  have hrel := hcross q hq' p hp
  refine ⟨?_, ?_, ?_⟩
  · show ((sortedLikes members).take 10).length = _
    rw [List.length_take]
    unfold sortedLikes
    rw [(List.perm_insertionSort countOrder _).length_eq]
  · show (sortedAllergens members).length = _
    unfold sortedAllergens
    exact (List.perm_insertionSort countOrder _).length_eq
  · rcases hrel with h | ⟨h1, _⟩
    · omega
    · omega

/-- Witness for `household_profile_truncation`: one member with eleven
distinct likes; the eleventh sorted like is dropped, the first is kept. -/
theorem household_profile_truncation_witness :
    (("a11", 1) : String × Nat) ∈ (sortedLikes [c10Member]).drop 10
    ∧ (("a01", 1) : String × Nat) ∈ (household_profile [c10Member]).topLikes
    ∧ (household_profile [c10Member]).topLikes.length
      = min 10 (countItems (likeKeys [c10Member])).length
    ∧ (household_profile [c10Member]).allergens.length
      = (countItems (allergenKeys [c10Member])).length
    ∧ (("a11", 1) : String × Nat).2 ≤ (("a01", 1) : String × Nat).2 := by
  have h := household_profile_truncation [c10Member] ("a11", 1) ("a01", 1)
    (by decide) (by decide)
  exact ⟨by decide, by decide, h.1, h.2.1, h.2.2⟩

/-! ### C2 and C3: runner cancellation and fallback accounting

Field bookkeeping for the state helpers, then the behaviour of one day of the
loop, then the claims. -/

@[simp] theorem stAddEvent_job (st : RunState) (stage msg : String) :
    (stAddEvent st stage msg).store.job = st.store.job := rfl

@[simp] theorem stAddEvent_saved (st : RunState) (stage msg : String) :
    (stAddEvent st stage msg).saved = st.saved := rfl

@[simp] theorem stAddEvent_aborted (st : RunState) (stage msg : String) :
    (stAddEvent st stage msg).aborted = st.aborted := rfl

@[simp] theorem stAddEvent_exc (st : RunState) (stage msg : String) :
    (stAddEvent st stage msg).exc = st.exc := rfl

@[simp] theorem stAddEvent_callIdx (st : RunState) (stage msg : String) :
    (stAddEvent st stage msg).callIdx = st.callIdx := rfl

@[simp] theorem stAddEvent_callLog (st : RunState) (stage msg : String) :
    (stAddEvent st stage msg).callLog = st.callLog := rfl

theorem stAddEvent_events (st : RunState) (stage msg : String) :
    (stAddEvent st stage msg).store.events
      = st.store.events ++ [{ stage := stage, message := msg }] := rfl

@[simp] theorem recordCall_job (st : RunState) (k : CallKind) :
    (recordCall st k).store.job = st.store.job := rfl

@[simp] theorem recordCall_saved (st : RunState) (k : CallKind) :
    (recordCall st k).saved = st.saved := rfl

@[simp] theorem recordCall_aborted (st : RunState) (k : CallKind) :
    (recordCall st k).aborted = st.aborted := rfl

@[simp] theorem recordCall_exc (st : RunState) (k : CallKind) :
    (recordCall st k).exc = st.exc := rfl

@[simp] theorem recordCall_callIdx (st : RunState) (k : CallKind) :
    (recordCall st k).callIdx = st.callIdx + 1 := rfl

@[simp] theorem recordCall_callLog (st : RunState) (k : CallKind) :
    (recordCall st k).callLog = st.callLog ++ [k] := rfl

@[simp] theorem stMarkFailed_saved (st : RunState) (e : String) :
    (stMarkFailed st e).saved = st.saved := rfl

@[simp] theorem stMarkFailed_aborted (st : RunState) (e : String) :
    (stMarkFailed st e).aborted = st.aborted := rfl

@[simp] theorem stMarkFailed_exc (st : RunState) (e : String) :
    (stMarkFailed st e).exc = st.exc := rfl

@[simp] theorem stMarkFailed_callIdx (st : RunState) (e : String) :
    (stMarkFailed st e).callIdx = st.callIdx := rfl

@[simp] theorem stMarkFailed_callLog (st : RunState) (e : String) :
    (stMarkFailed st e).callLog = st.callLog := rfl

theorem stMarkFailed_job_some (st : RunState) (e : String) (j : PlanningJob)
    (hj : st.store.job = some j) :
    (stMarkFailed st e).store.job = some { j with status := "failed" } := by
  unfold stMarkFailed mark_job_failed
  rw [hj]
  rfl

@[simp] theorem stAbort_store (st : RunState) : (stAbort st).store = st.store := rfl

@[simp] theorem stAbort_saved (st : RunState) : (stAbort st).saved = st.saved := rfl

@[simp] theorem stAbort_aborted (st : RunState) : (stAbort st).aborted = true := rfl

@[simp] theorem stAbort_exc (st : RunState) : (stAbort st).exc = st.exc := rfl

@[simp] theorem stAbort_callIdx (st : RunState) : (stAbort st).callIdx = st.callIdx := rfl

@[simp] theorem stAbort_callLog (st : RunState) : (stAbort st).callLog = st.callLog := rfl

/-- Once `_execute_planning` has returned or raised, later iterations do
nothing. -/
theorem execDay_stuck (gen : Nat → Option String → Except String (List RunEntry))
    (d : String) (st : RunState)
    (h : st.aborted = true ∨ st.exc.isSome = true) : execDay gen d st = st := by
  unfold execDay
  rcases h with h | h <;> simp [h]

/-- `execDays` version of `execDay_stuck`. -/
theorem execDays_stuck (gen : Nat → Option String → Except String (List RunEntry))
    (days : List String) (st : RunState)
    (h : st.aborted = true ∨ st.exc.isSome = true) : execDays gen days st = st := by
  induction days with
  | nil => rfl
  | cons d rest ih =>
    show execDays gen rest (execDay gen d st) = st
    rw [execDay_stuck gen d st h]
    exact ih

/-- A whole-week rerun from the empty-entries branch never touches the job row
or the saved plan unless it returns early or raises. -/
theorem emptyFallback_pres (d : String) (st : RunState)
    (r : Except String (List RunEntry)) :
    (emptyFallback d st r).aborted = false →
    (emptyFallback d st r).exc = none →
    (emptyFallback d st r).store.job = st.store.job
    ∧ (emptyFallback d st r).saved = st.saved := by
  unfold emptyFallback
  split
  · intro _ hexc
    simp at hexc
  · dsimp only
    split
    · intro hab _
      simp at hab
    · intro _ _
      exact ⟨rfl, rfl⟩

/-- `afterResult` version of `emptyFallback_pres`. -/
theorem afterResult_pres (gen : Nat → Option String → Except String (List RunEntry))
    (d : String) (st : RunState) (res : List RunEntry) :
    (afterResult gen d st res).aborted = false →
    (afterResult gen d st res).exc = none →
    (afterResult gen d st res).store.job = st.store.job
    ∧ (afterResult gen d st res).saved = st.saved := by
  unfold afterResult
  dsimp only
  split
  · intro hab hexc
    have h := emptyFallback_pres d _ _ hab hexc
    simpa using h
  · intro _ _
    exact ⟨rfl, rfl⟩

/-- `excFallback` version of `emptyFallback_pres`. -/
theorem excFallback_pres (gen : Nat → Option String → Except String (List RunEntry))
    (d : String) (st : RunState) (r : Except String (List RunEntry)) :
    (excFallback gen d st r).aborted = false →
    (excFallback gen d st r).exc = none →
    (excFallback gen d st r).store.job = st.store.job
    ∧ (excFallback gen d st r).saved = st.saved := by
  unfold excFallback
  split
  · intro hab _
    simp at hab
  · intro hab hexc
    exact afterResult_pres gen d st _ hab hexc

/-- `execPrimary` version of `emptyFallback_pres`. -/
theorem execPrimary_pres (gen : Nat → Option String → Except String (List RunEntry))
    (d : String) (st : RunState) (r : Except String (List RunEntry)) :
    (execPrimary gen d st r).aborted = false →
    (execPrimary gen d st r).exc = none →
    (execPrimary gen d st r).store.job = st.store.job
    ∧ (execPrimary gen d st r).saved = st.saved := by
  unfold execPrimary
  split
  · split
    · intro hab hexc
      have h := excFallback_pres gen d _ _ hab hexc
      simpa using h
    · intro hab _
      simp at hab
  · intro hab hexc
    exact afterResult_pres gen d st _ hab hexc

/-- One non-returning, non-raising day iteration leaves the job row and the
saved plan untouched (they are only written on the return/raise paths). -/
theorem execDay_pres (gen : Nat → Option String → Except String (List RunEntry))
    (d : String) (st : RunState) :
    (execDay gen d st).aborted = false →
    (execDay gen d st).exc = none →
    (execDay gen d st).store.job = st.store.job
    ∧ (execDay gen d st).saved = st.saved := by
  unfold execDay
  split
  · intro _ _
    exact ⟨rfl, rfl⟩
  · split
    · intro hab _
      simp at hab
    · split
      · intro hab _
        simp at hab
      · intro hab hexc
        have h := execPrimary_pres gen d _ _ hab hexc
        simpa using h

/-- `execDays` version of `execDay_pres`. -/
theorem execDays_pres (gen : Nat → Option String → Except String (List RunEntry))
    (days : List String) (st : RunState) :
    (execDays gen days st).aborted = false →
    (execDays gen days st).exc = none →
    (execDays gen days st).store.job = st.store.job
    ∧ (execDays gen days st).saved = st.saved := by
  induction days generalizing st with
  | nil => exact fun _ _ => ⟨rfl, rfl⟩
  | cons d rest ih =>
    intro hab hexc
    have hstep : execDays gen (d :: rest) st = execDays gen rest (execDay gen d st) := rfl
    rw [hstep] at hab hexc
    cases h1 : (execDay gen d st).aborted with
    | true =>
      rw [execDays_stuck gen rest _ (Or.inl h1), h1] at hab
      cases hab
    | false =>
      cases h2 : (execDay gen d st).exc with
      | some e =>
        have h2s : (execDay gen d st).exc.isSome = true := by rw [h2]; rfl
        rw [execDays_stuck gen rest _ (Or.inr h2s), h2] at hexc
        cases hexc
      | none =>
        obtain ⟨hj, hs⟩ := execDay_pres gen d st h1 h2
        rw [hstep]
        obtain ⟨hj2, hs2⟩ := ih (execDay gen d st) hab hexc
        exact ⟨hj2.trans hj, hs2.trans hs⟩

theorem execDays_cons (gen : Nat → Option String → Except String (List RunEntry))
    (d : String) (rest : List String) (st : RunState) :
    execDays gen (d :: rest) st = execDays gen rest (execDay gen d st) := rfl

/-- The final save does nothing once the loop has returned or raised. -/
theorem finalSave_stuck (st : RunState)
    (h : st.aborted = true ∨ st.exc.isSome = true) : finalSave st = st := by
  unfold finalSave
  rcases h with h | h <;> simp [h]

/-- The top-level handler does nothing when no exception is propagating. -/
theorem topHandler_none (st : RunState) (h : st.exc = none) : topHandler st = st := by
  unfold topHandler
  rw [h]

/-- The day-boundary check: a cancelled job makes the iteration emit the
cancellation event and return, touching nothing else. -/
theorem execDay_cancelled (gen : Nat → Option String → Except String (List RunEntry))
    (d : String) (st : RunState) (j : PlanningJob)
    (hab : st.aborted = false) (hexc : st.exc = none)
    (hj : st.store.job = some j) (hstatus : j.status = "cancelled") :
    execDay gen d st = stAbort (stAddEvent st "cancelled" ("Cancelled before " ++ d)) := by
  unfold execDay
  rw [hj]
  simp [hab, hexc, hstatus]

/-- External cancellation of a job in a non-terminal status: the status
becomes cancelled and nothing else of the runner state changes. -/
theorem stCancel_running (st : RunState) (j : PlanningJob)
    (hj : st.store.job = some j)
    (hterm : terminalStatuses.contains j.status = false) :
    (stCancel st).store.job = some { j with status := "cancelled" }
    ∧ (stCancel st).saved = st.saved
    ∧ (stCancel st).aborted = st.aborted
    ∧ (stCancel st).exc = st.exc := by
  refine ⟨?_, rfl, rfl, rfl⟩
  show (cancel_job st.store none).job = _
  unfold cancel_job
  rw [hj]
  have hterm2 : j.status ∉ terminalStatuses := by simpa using hterm
  simp [hterm2, add_event]

/-- C2: if the job is cancelled after the runner has processed days `0..n`
without returning or raising, the runner stops at the next day boundary with
a cancellation event, saves no plan at all, and the job's final status is
cancelled — never completed. -/
theorem runner_cancel_between_days
    (gen : Nat → Option String → Except String (List RunEntry)) (n : Nat)
    (hn : n + 1 < 7)
    (hab : (execDays gen (DAY_ORDER.take (n + 1)) initRunState).aborted = false)
    (hexc : (execDays gen (DAY_ORDER.take (n + 1)) initRunState).exc = none) :
    (runWithCancelAfter gen n).store.job.map PlanningJob.status = some "cancelled"
    ∧ (runWithCancelAfter gen n).saved = none
    ∧ (runWithCancelAfter gen n).store.job.map PlanningJob.status ≠ some "completed"
    ∧ ∃ ev, ev ∈ (runWithCancelAfter gen n).store.events ∧ ev.stage = "cancelled" := by
  obtain ⟨hjob1, hsaved1⟩ :=
    execDays_pres gen (DAY_ORDER.take (n + 1)) initRunState hab hexc
  have hjob1' : (execDays gen (DAY_ORDER.take (n + 1)) initRunState).store.job
      = some { status := "running", planId := none } := hjob1.trans rfl
  have hsaved1' : (execDays gen (DAY_ORDER.take (n + 1)) initRunState).saved = none :=
    hsaved1.trans rfl
  obtain ⟨hjob2, hsaved2, hab2, hexc2⟩ :=
    stCancel_running (execDays gen (DAY_ORDER.take (n + 1)) initRunState) _
      hjob1' (by decide)
  have hab2' : (stCancel (execDays gen (DAY_ORDER.take (n + 1)) initRunState)).aborted
      = false := hab2.trans hab
  have hexc2' : (stCancel (execDays gen (DAY_ORDER.take (n + 1)) initRunState)).exc
      = none := hexc2.trans hexc
  have hsaved2' : (stCancel (execDays gen (DAY_ORDER.take (n + 1)) initRunState)).saved
      = none := hsaved2.trans hsaved1'
  have hlen : n + 1 < DAY_ORDER.length := hn
  have hday := execDay_cancelled gen (DAY_ORDER[n + 1])
    (stCancel (execDays gen (DAY_ORDER.take (n + 1)) initRunState)) _
    hab2' hexc2' hjob2 rfl
  have hexecdrop : execDays gen (DAY_ORDER.drop (n + 1))
      (stCancel (execDays gen (DAY_ORDER.take (n + 1)) initRunState))
      = stAbort (stAddEvent
          (stCancel (execDays gen (DAY_ORDER.take (n + 1)) initRunState))
          "cancelled" ("Cancelled before " ++ DAY_ORDER[n + 1])) := by
    rw [List.drop_eq_getElem_cons hlen, execDays_cons, hday]
    exact execDays_stuck gen _ _ (Or.inl rfl)
  have hexcst3 : (stAbort (stAddEvent
      (stCancel (execDays gen (DAY_ORDER.take (n + 1)) initRunState))
      "cancelled" ("Cancelled before " ++ DAY_ORDER[n + 1]))).exc = none := by
    simp [hexc2']
  have hfinal : runWithCancelAfter gen n
      = stAbort (stAddEvent
          (stCancel (execDays gen (DAY_ORDER.take (n + 1)) initRunState))
          "cancelled" ("Cancelled before " ++ DAY_ORDER[n + 1])) := by
    show topHandler (finalSave (execDays gen (DAY_ORDER.drop (n + 1)) _)) = _
    rw [hexecdrop, finalSave_stuck _ (Or.inl rfl), topHandler_none _ hexcst3]
  rw [hfinal]
  refine ⟨?_, ?_, ?_, ?_⟩
  · simp [hjob2]
  · simp [hsaved2']
  · simp [hjob2]
  · refine ⟨{ stage := "cancelled",
              message := "Cancelled before " ++ DAY_ORDER[n + 1] }, ?_, rfl⟩
    rw [stAbort_store, stAddEvent_events]
    exact List.mem_append_right _ (List.mem_singleton_self _)

/-- Witness for `runner_cancel_between_days`: an oracle that always returns
the requested day's entry, cancellation after Monday. -/
theorem runner_cancel_between_days_witness :
    (execDays genAllOk (DAY_ORDER.take 1) initRunState).aborted = false
    ∧ (execDays genAllOk (DAY_ORDER.take 1) initRunState).exc = none
    ∧ (runWithCancelAfter genAllOk 0).store.job.map PlanningJob.status = some "cancelled"
    ∧ (runWithCancelAfter genAllOk 0).saved = none := by
  refine ⟨rfl, rfl, ?_, ?_⟩
  · exact (runner_cancel_between_days genAllOk 0 (by decide) rfl rfl).1
  · exact (runner_cancel_between_days genAllOk 0 (by decide) rfl rfl).2.1

theorem countFallbackCalls_append (day : String) (l1 l2 : List CallKind) :
    countFallbackCalls day (l1 ++ l2)
      = countFallbackCalls day l1 + countFallbackCalls day l2 := by
  simp [countFallbackCalls]

theorem countFallbackCalls_primary (day d : String) :
    countFallbackCalls day [CallKind.primary d] = 0 := by
  simp [countFallbackCalls]

theorem countFallbackCalls_single_le (day : String) (k : CallKind) :
    countFallbackCalls day [k] ≤ 1 := by
  unfold countFallbackCalls
  rw [List.countP_cons]
  split <;> simp

/-- The empty-entries fallback handler issues no `workflow.generate` call of
its own (its call was recorded by `afterResult`). -/
theorem emptyFallback_log (d : String) (st : RunState)
    (r : Except String (List RunEntry)) :
    (emptyFallback d st r).callLog = st.callLog := by
  unfold emptyFallback
  split
  · rfl
  · dsimp only
    split <;> rfl

/-- Handling one workflow result issues at most one whole-week call. -/
theorem afterResult_count (day : String)
    (gen : Nat → Option String → Except String (List RunEntry))
    (d : String) (st : RunState) (res : List RunEntry) :
    countFallbackCalls day (afterResult gen d st res).callLog
      ≤ countFallbackCalls day st.callLog + 1 := by
  unfold afterResult
  dsimp only
  split
  · rw [emptyFallback_log, recordCall_callLog, stAddEvent_callLog,
      countFallbackCalls_append]
    have h := countFallbackCalls_single_le day (CallKind.fallbackEmpty d)
    omega
  · rw [stAddEvent_callLog]
    exact Nat.le_add_right _ _

/-- The in-handler fallback result is handled with at most one further
whole-week call. -/
theorem excFallback_count (day : String)
    (gen : Nat → Option String → Except String (List RunEntry))
    (d : String) (st : RunState) (r : Except String (List RunEntry)) :
    countFallbackCalls day (excFallback gen d st r).callLog
      ≤ countFallbackCalls day st.callLog + 1 := by
  unfold excFallback
  split
  · rw [stAbort_callLog, stAddEvent_callLog, stMarkFailed_callLog]
    exact Nat.le_add_right _ _
  · exact afterResult_count day gen d st _

/-- Classifying and handling the primary result issues at most two
whole-week calls. -/
theorem execPrimary_count (day : String)
    (gen : Nat → Option String → Except String (List RunEntry))
    (d : String) (st : RunState) (r : Except String (List RunEntry)) :
    countFallbackCalls day (execPrimary gen d st r).callLog
      ≤ countFallbackCalls day st.callLog + 2 := by
  unfold execPrimary
  split
  · split
    · have h := excFallback_count day gen d
        (recordCall st (CallKind.fallbackExc d)) (gen st.callIdx none)
      rw [recordCall_callLog, countFallbackCalls_append] at h
      have h2 := countFallbackCalls_single_le day (CallKind.fallbackExc d)
      omega
    · rw [stAbort_callLog, stAddEvent_callLog, stMarkFailed_callLog]
      exact Nat.le_add_right _ _
  · rename_i res
    have h := afterResult_count day gen d st res
    omega

/-- A successful primary result is handled with at most one whole-week
call. -/
theorem execPrimary_count_ok (day : String)
    (gen : Nat → Option String → Except String (List RunEntry))
    (d : String) (st : RunState) (res : List RunEntry) :
    countFallbackCalls day (execPrimary gen d st (.ok res)).callLog
      ≤ countFallbackCalls day st.callLog + 1 :=
  afterResult_count day gen d st res

/-- One day iteration issues at most two whole-week fallback calls. -/
theorem execDay_count (day : String)
    (gen : Nat → Option String → Except String (List RunEntry))
    (d : String) (st : RunState) :
    countFallbackCalls day (execDay gen d st).callLog
      ≤ countFallbackCalls day st.callLog + 2 := by
  unfold execDay
  split
  · exact Nat.le_add_right _ _
  · split
    · rw [stAbort_callLog, stAddEvent_callLog, stMarkFailed_callLog]
      exact Nat.le_add_right _ _
    · split
      · rw [stAbort_callLog, stAddEvent_callLog]
        exact Nat.le_add_right _ _
      · have h := execPrimary_count day gen d
          (recordCall (stAddEvent st "planning" ("Planning " ++ d))
            (CallKind.primary d)) (gen st.callIdx (some d))
        rw [recordCall_callLog, stAddEvent_callLog, countFallbackCalls_append,
          countFallbackCalls_primary] at h
        omega

/-- When the single-day run returns successfully, the day issues at most one
whole-week fallback call. -/
theorem execDay_count_ok (day : String)
    (gen : Nat → Option String → Except String (List RunEntry))
    (d : String) (st : RunState) (res : List RunEntry)
    (hok : gen st.callIdx (some d) = .ok res) :
    countFallbackCalls day (execDay gen d st).callLog
      ≤ countFallbackCalls day st.callLog + 1 := by
  unfold execDay
  split
  · exact Nat.le_add_right _ _
  · split
    · rw [stAbort_callLog, stAddEvent_callLog, stMarkFailed_callLog]
      exact Nat.le_add_right _ _
    · split
      · rw [stAbort_callLog, stAddEvent_callLog]
        exact Nat.le_add_right _ _
      · rw [hok]
        have h := execPrimary_count_ok day gen d
          (recordCall (stAddEvent st "planning" ("Planning " ++ d))
            (CallKind.primary d)) res
        rw [recordCall_callLog, stAddEvent_callLog, countFallbackCalls_append,
          countFallbackCalls_primary] at h
        omega

/-- The empty-entries path: a successful single-day run with no entries for
the day triggers exactly one whole-week fallback; when that fallback also
yields no entries for the day, the job is marked failed and the runner
returns. -/
theorem execDay_empty_then_empty_fails
    (gen : Nat → Option String → Except String (List RunEntry))
    (d : String) (st : RunState) (j : PlanningJob) (res res2 : List RunEntry)
    (hab : st.aborted = false) (hexc : st.exc = none)
    (hj : st.store.job = some j) (hstatus : ¬ j.status = "cancelled")
    (hprim : gen st.callIdx (some d) = .ok res)
    (hres : res.filter (fun e => e.day = some d) = [])
    (hfb : gen (st.callIdx + 1) none = .ok res2)
    (hres2 : res2.filter (fun e => e.day = some d) = []) :
    (execDay gen d st).store.job.map PlanningJob.status = some "failed"
    ∧ (execDay gen d st).aborted = true
    ∧ (execDay gen d st).callLog
      = st.callLog ++ [CallKind.primary d, CallKind.fallbackEmpty d] := by
  have hstep : execDay gen d st
      = afterResult gen d (recordCall (stAddEvent st "planning" ("Planning " ++ d))
          (CallKind.primary d)) res := by
    unfold execDay
    rw [hj]
    simp [hab, hexc, hstatus, hprim, execPrimary]
  have hfb' : gen (recordCall (stAddEvent st "planning" ("Planning " ++ d))
      (CallKind.primary d)).callIdx none = .ok res2 := by
    rw [recordCall_callIdx, stAddEvent_callIdx]
    exact hfb
  have hstep2 : execDay gen d st
      = emptyFallback d
          (recordCall
            (stAddEvent (recordCall (stAddEvent st "planning" ("Planning " ++ d))
              (CallKind.primary d)) "fallback" ("Fallback triggered for " ++ d))
            (CallKind.fallbackEmpty d))
          (.ok res2) := by
    rw [hstep]
    unfold afterResult
    dsimp only
    rw [hres, hfb']
    rfl
  have hjF : (recordCall
      (stAddEvent (recordCall (stAddEvent st "planning" ("Planning " ++ d))
        (CallKind.primary d)) "fallback" ("Fallback triggered for " ++ d))
      (CallKind.fallbackEmpty d)).store.job = some j := by
    rw [recordCall_job, stAddEvent_job, recordCall_job, stAddEvent_job]
    exact hj
  have hstep3 : execDay gen d st
      = stAbort (stAddEvent (stMarkFailed
          (recordCall
            (stAddEvent (recordCall (stAddEvent st "planning" ("Planning " ++ d))
              (CallKind.primary d)) "fallback" ("Fallback triggered for " ++ d))
            (CallKind.fallbackEmpty d)) ("No meals for " ++ d))
          "error" ("No meals for " ++ d)) := by
    rw [hstep2]
    unfold emptyFallback
    dsimp only
    rw [hres2]
    rfl
  rw [hstep3]
  refine ⟨?_, rfl, ?_⟩
  · rw [stAbort_store, stAddEvent_job, stMarkFailed_job_some _ _ j hjF]
    rfl
  · rw [stAbort_callLog, stAddEvent_callLog, stMarkFailed_callLog,
      recordCall_callLog, stAddEvent_callLog, recordCall_callLog,
      stAddEvent_callLog, List.append_assoc]
    rfl

/-- C3 (counterexample): the claim says an empty result triggers exactly one
fallback attempt and that a second fallback generation is never run for the
same day.  But when the single-day run raises an empty-plan-classified error
and the in-handler whole-week rerun succeeds with zero entries for the day,
the result flows into the `if not day_entries` branch, which runs a second
whole-week generation for the same day: the ghost call log records two
fallback calls for Monday. -/
theorem runner_double_fallback_same_day :
    is_llm_empty_plan "empty plan" = true
    ∧ (execDay genEmptyPlanTrace "Mon" initRunState).callLog
      = [CallKind.primary "Mon", CallKind.fallbackExc "Mon",
         CallKind.fallbackEmpty "Mon"]
    ∧ countFallbackCalls "Mon"
        (execDay genEmptyPlanTrace "Mon" initRunState).callLog = 2 := by
  refine ⟨by decide, rfl, rfl⟩

/-- C3 (amended): each day of a job runs at most two whole-week fallback
generations; a day whose single-day run returns successfully runs at most
one; and in the empty-entries path (successful single-day run with zero
entries for the day) exactly one fallback is run, after which a fallback
that still yields zero entries for the day marks the job failed and stops
the runner.  (Only the raising path can reach a second fallback.) -/
theorem runner_fallback_bounds :
    (∀ (gen : Nat → Option String → Except String (List RunEntry))
      (day : String) (st : RunState),
      countFallbackCalls day (execDay gen day st).callLog
        ≤ countFallbackCalls day st.callLog + 2)
    ∧ (∀ (gen : Nat → Option String → Except String (List RunEntry))
      (day : String) (st : RunState) (res : List RunEntry),
      gen st.callIdx (some day) = .ok res →
      countFallbackCalls day (execDay gen day st).callLog
        ≤ countFallbackCalls day st.callLog + 1)
    ∧ (∀ (gen : Nat → Option String → Except String (List RunEntry))
      (day : String) (st : RunState) (j : PlanningJob) (res res2 : List RunEntry),
      st.aborted = false → st.exc = none → st.store.job = some j →
      ¬ j.status = "cancelled" →
      gen st.callIdx (some day) = .ok res →
      res.filter (fun e => e.day = some day) = [] →
      gen (st.callIdx + 1) none = .ok res2 →
      res2.filter (fun e => e.day = some day) = [] →
      (execDay gen day st).store.job.map PlanningJob.status = some "failed"
      ∧ (execDay gen day st).aborted = true
      ∧ (execDay gen day st).callLog
        = st.callLog ++ [CallKind.primary day, CallKind.fallbackEmpty day]) := by
  refine ⟨?_, ?_, ?_⟩
  · intro gen day st
    exact execDay_count day gen day st
  · intro gen day st res h
    exact execDay_count_ok day gen day st res h
  · intro gen day st j res res2 h1 h2 h3 h4 h5 h6 h7 h8
    exact execDay_empty_then_empty_fails gen day st j res res2 h1 h2 h3 h4 h5 h6 h7 h8

/-- Witness for `runner_fallback_bounds`: an oracle that always returns an
empty plan; Monday's empty-entries path runs one fallback and fails the
job. -/
theorem runner_fallback_bounds_witness :
    genOkEmpty 0 (some "Mon") = .ok []
    ∧ genOkEmpty 1 none = .ok []
    ∧ (execDay genOkEmpty "Mon" initRunState).store.job.map PlanningJob.status
      = some "failed"
    ∧ (execDay genOkEmpty "Mon" initRunState).aborted = true
    ∧ (execDay genOkEmpty "Mon" initRunState).callLog
      = [CallKind.primary "Mon", CallKind.fallbackEmpty "Mon"]
    ∧ countFallbackCalls "Mon" (execDay genOkEmpty "Mon" initRunState).callLog ≤ 1 := by
  have h := runner_fallback_bounds.2.2 genOkEmpty "Mon" initRunState
    { status := "running", planId := none } [] [] rfl rfl rfl (by decide)
    rfl rfl rfl rfl
  have h2 := runner_fallback_bounds.2.1 genOkEmpty "Mon" initRunState [] rfl
  have h0 : countFallbackCalls "Mon" initRunState.callLog = 0 := rfl
  exact ⟨rfl, rfl, h.1, h.2.1, h.2.2, by omega⟩
